import Mathlib

/-!
Verification of the RSS event-source poller
(`extensions/eda/plugins/event_source/rss.py`).

The embedding models the pure per-cycle behaviour of `poll_feed` together
with the helper `get_nested_value`.  Python strings are modelled as
`List Char`, Python values reachable by `get_nested_value` as `PyVal`,
Python `None` as `PyVal.none`.  Exceptions raised inside the polling loop
(`AttributeError` / `TypeError` when an entry lacks a comparable
`updated_parsed`) are modelled explicitly, because they abort the cycle
before the watermark-update statement runs.
-/

/-- A Python value as seen by `get_nested_value`: `None`, strings, numbers,
dictionaries (association lists keyed by strings) and lists. -/
inductive PyVal where
  | none : PyVal
  | str : List Char → PyVal
  | int : Int → PyVal
  | dict : List (List Char × PyVal) → PyVal
  | list : List PyVal → PyVal

/-- Python `d.get(k)` for a dictionary given as an association list:
the value of the first matching key, `None` when the key is missing. -/
def dictGet : List (List Char × PyVal) → List Char → PyVal
  | [], _ => .none
  | (k', v) :: rest, k => if k' = k then v else dictGet rest k

/-- Test `isinstance(d, dict)` (note `None` is not a dict). -/
def isDictB : PyVal → Bool
  | .dict _ => true
  | _ => false

/-- Source function `get_nested_value(dictionary, keys)`:
for each key, if the current value is `None` or not a dict, return `None`;
otherwise step to `dictionary.get(key)`.  After the loop, return the
current value. -/
def get_nested_value : PyVal → List (List Char) → PyVal
  | d, [] => d
  | d, k :: ks =>
    match d with
    | .dict l => get_nested_value (dictGet l k) ks
    | _ => .none

/-- Python runtime errors that the modelled code can raise. -/
inductive PyErr where
  | attributeError : PyErr
  | typeError : PyErr

/-- Attribute/method access `d.get(k)`: raises `AttributeError` when `d`
is not a dictionary.  Used to show the guard in `get_nested_value`
prevents the call from ever being reached on a non-dict. -/
def pyGetE (d : PyVal) (k : List Char) : Except PyErr PyVal :=
  match d with
  | .dict l => .ok (dictGet l k)
  | _ => .error .attributeError

/-- Variant of `get_nested_value` with the possibility of raising made explicit:
`dictionary.get(key)` is only legal on dictionaries (`pyGetE`), and the
source guards each iteration with
`if dictionary is None or not isinstance(dictionary, dict): return None`. -/
def get_nested_valueE : PyVal → List (List Char) → Except PyErr PyVal
  | d, [] => .ok d
  | d, k :: ks =>
    if isDictB d = false then .ok .none
    else
      match pyGetE d k with
      | .error err => .error err
      | .ok d' => get_nested_valueE d' ks

/-- Python `s.split('.')` for a single-character separator, on character
lists: accumulator-style scan.  `"".split('.') = [""]`,
`"a..b".split('.') = ["a", "", "b"]`. -/
def splitDotGo : List Char → List Char → List (List Char)
  | [], cur => [cur.reverse]
  | c :: rest, cur =>
    if c = '.' then cur.reverse :: splitDotGo rest []
    else splitDotGo rest (c :: cur)

/-- Python `content_tags_path.split('.')`. -/
def splitDot (p : List Char) : List (List Char) := splitDotGo p []

/-- Line 101 of the source:
`content_tags_keys = content_tags_path.split('.') if content_tags_path else []`.
`none` models an absent key, and an empty string is falsy in Python. -/
def contentTagsKeys : Option (List Char) → List (List Char)
  | Option.none => []
  | Option.some p => if p = [] then [] else splitDot p

/-- The composed field projection as `poll_feed` performs it:
`get_nested_value(entry, content_tags_keys) if content_tags_keys else None`. -/
def projectContentTags (entry : PyVal) (path : Option (List Char)) : PyVal :=
  let keys := contentTagsKeys path
  if keys = [] then .none else get_nested_value entry keys

/-- Python substring containment `needle in hay`. -/
def strContains : List Char → List Char → Bool
  | [], needle => needle.isEmpty
  | c :: t, needle => needle.isPrefixOf (c :: t) || strContains t needle

/-- The search filter of `poll_feed`:
`search_string is None or search_string in entry.summary`. -/
def searchPass : Option (List Char) → List Char → Bool
  | Option.none, _ => true
  | Option.some q, s => strContains s q

/-- Line 103 of the source:
`interval = feed_config.get('interval') or default_interval` —
Python `or` takes the right operand when the left is falsy
(absent/`None` is modelled by `none`, and `0` is falsy). -/
def effectiveInterval (cfgInterval : Option Int) (defaultInterval : Int) : Int :=
  match cfgInterval with
  | Option.none => defaultInterval
  | Option.some v => if v = 0 then defaultInterval else v

/-- One parsed feed entry.  `updated_parsed` is `none` when the entry has
no comparable timestamp (in which case `entry.updated_parsed > last_updated`
raises).  `fields` is the entry viewed as the dictionary that
`get_nested_value` walks; `summary` is its summary string. -/
structure Entry where
  summary : List Char
  updated_parsed : Option Int
  fields : PyVal

/-- Result of `feedparser.parse` on a successful fetch:
the feed-level `updated_parsed` when present, and the ordered entry list. -/
structure ParsedFeed where
  feedUpdated : Option Int
  entries : List Entry

/-- Outcome of `fetch_rss_feed` for one cycle: `failure` is an empty
`feed_data` (HTTP non-200, transport exception, or empty body); `success`
carries the parsed document. -/
inductive FetchOutcome where
  | failure : FetchOutcome
  | success : ParsedFeed → FetchOutcome

/-- The per-feed configuration fields `poll_feed` reads. -/
structure FeedConfig where
  search : Option (List Char)
  content_tags : Option (List Char)
  name : Option (List Char)

/-- The mutable per-poller state: watermark `last_updated` and the
cold-start flag `first_poll`. -/
structure PollerState where
  last_updated : Option Int
  first_poll : Bool

/-- An event placed on the output queue: the entry, the injected
`content_tags` key (only when the projection resolved to non-`None`)
and the injected `feed_name`. -/
structure Event where
  entry : Entry
  content_tags : Option PyVal
  feed_name : List Char

/-- Python `v is None`. -/
def isNoneB : PyVal → Bool
  | .none => true
  | _ => false

/-- Event construction: project `content_tags` when configured and attach
it only when non-`None` (`if content_tags is not None`), then attach
`feed_name` (`feed_config.get('name', '')`). -/
def mkEvent (cfg : FeedConfig) (e : Entry) : Event :=
  let ct := projectContentTags e.fields cfg.content_tags
  { entry := e
  , content_tags := if isNoneB ct then Option.none else Option.some ct
  , feed_name := cfg.name.getD [] }

/-- The guard of the cold-start branch at line 114:
`if first_poll and most_recent_item and feed.entries:`
(a Python list is truthy iff nonempty). -/
def takesCold (mri : Bool) (st : PollerState) (pf : ParsedFeed) : Bool :=
  st.first_poll && mri && !pf.entries.isEmpty

/-- The STEADY selection loop (lines 123-130):
`for entry in feed.entries: if entry.updated_parsed > last_updated and (...)`.
Returns the events put on the queue before the loop ended, in entry order,
and `true` iff the loop completed without raising.  An entry whose
`updated_parsed` is absent makes the comparison raise, which aborts the
loop (and the rest of the `try` block) at that entry. -/
def steadyLoop (cfg : FeedConfig) (w : Int) : List Entry → List Event × Bool
  | [] => ([], true)
  | e :: rest =>
    match e.updated_parsed with
    | Option.none => ([], false)
    | Option.some t =>
      if decide (w < t) && searchPass cfg.search e.summary then
        let r := steadyLoop cfg w rest
        (mkEvent cfg e :: r.1, r.2)
      else
        steadyLoop cfg w rest

/-- The selection predicate of the STEADY branch for entries that carry a
timestamp (line 125 of the source): strictly newer than the watermark and
passing the search filter.  An entry without a timestamp raises instead of
being selected, so it maps to `false` only in the statements that assume
the loop completed. -/
def steadySelect (cfg : FeedConfig) (w : Int) (e : Entry) : Bool :=
  match e.updated_parsed with
  | Option.none => false
  | Option.some t => decide (w < t) && searchPass cfg.search e.summary

/-- One iteration of the `while True` body of `poll_feed`, given the
outcome of `fetch_rss_feed`.  Returns the poller state after the cycle and
the events put on the queue during the cycle, in order.

- fetch failure (`feed_data` empty): log only, state unchanged;
- cold-start branch (`first_poll and most_recent_item and feed.entries`):
  entry 0 is emitted subject to the search filter, `first_poll` is cleared,
  and the watermark is set from `feed.feed.updated_parsed`;
- `elif last_updated:` — the STEADY loop; when it raises (an entry without
  `updated_parsed`), the `except` clause catches it and the watermark
  assignment at line 132 never runs, so the state is unchanged;
- otherwise nothing is selected and only the watermark is assigned
  (`feed.feed.updated_parsed if hasattr(...) else None`). -/
def pollCycle (cfg : FeedConfig) (mri : Bool) (st : PollerState) (fo : FetchOutcome) :
    PollerState × List Event :=
  match fo with
  | .failure => (st, [])
  | .success pf =>
    if takesCold mri st pf then
      let evs :=
        match pf.entries with
        | [] => []
        | e :: _ => if searchPass cfg.search e.summary then [mkEvent cfg e] else []
      ({ last_updated := pf.feedUpdated, first_poll := false }, evs)
    else
      match st.last_updated with
      | Option.some w =>
        let r := steadyLoop cfg w pf.entries
        if r.2 then ({ last_updated := pf.feedUpdated, first_poll := st.first_poll }, r.1)
        else (st, r.1)
      | Option.none =>
        ({ last_updated := pf.feedUpdated, first_poll := st.first_poll }, [])

/-- Several consecutive cycles of one poller: fold `pollCycle` over a list
of fetch outcomes, concatenating the emitted events. -/
def runCycles (cfg : FeedConfig) (mri : Bool) :
    PollerState → List FetchOutcome → PollerState × List Event
  | st, [] => (st, [])
  | st, fo :: rest =>
    let r := pollCycle cfg mri st fo
    let r' := runCycles cfg mri r.1 rest
    (r'.1, r.2 ++ r'.2)

/-! ### Helper lemmas -/

theorem strContains_iff (hay needle : List Char) :
    strContains hay needle = true ↔ needle <:+: hay := by
  induction hay with
  | nil =>
    simp [strContains, List.isEmpty_iff, List.infix_nil]
  | cons c t ih =>
    simp only [strContains, Bool.or_eq_true, List.isPrefixOf_iff_prefix, ih]
    exact (List.infix_cons_iff).symm

theorem splitDotGo_ne_nil (l : List Char) : ∀ cur, splitDotGo l cur ≠ [] := by
  induction l with
  | nil => intro cur; simp [splitDotGo]
  | cons c rest ih =>
    intro cur
    by_cases h : c = '.' <;> simp [splitDotGo, h, ih]

theorem get_nested_value_none_keys (ks : List (List Char)) :
    get_nested_value PyVal.none ks = PyVal.none := by
  cases ks <;> rfl

theorem get_nested_value_append (ks1 : List (List Char)) :
    ∀ (d : PyVal) (ks2 : List (List Char)),
      get_nested_value d (ks1 ++ ks2) =
        get_nested_value (get_nested_value d ks1) ks2 := by
  induction ks1 with
  | nil => intro d ks2; rfl
  | cons k ks ih =>
    intro d ks2
    cases d with
    | dict l => simpa [get_nested_value] using ih (dictGet l k) ks2
    | none => simp [get_nested_value, get_nested_value_none_keys]
    | str s => simp [get_nested_value, get_nested_value_none_keys]
    | int n => simp [get_nested_value, get_nested_value_none_keys]
    | list es => simp [get_nested_value, get_nested_value_none_keys]

theorem get_nested_valueE_eq (ks : List (List Char)) :
    ∀ d : PyVal, get_nested_valueE d ks = Except.ok (get_nested_value d ks) := by
  induction ks with
  | nil => intro d; rfl
  | cons k ks ih =>
    intro d
    cases d <;>
      simp [get_nested_valueE, get_nested_value, isDictB, pyGetE, ih]

theorem steadyLoop_total (cfg : FeedConfig) (w : Int) :
    ∀ l : List Entry, (∀ e ∈ l, (e.updated_parsed).isSome) →
      steadyLoop cfg w l = ((l.filter (steadySelect cfg w)).map (mkEvent cfg), true) := by
  intro l
  induction l with
  | nil => intro _; rfl
  | cons e rest ih =>
    intro h
    have he : (e.updated_parsed).isSome := h e (by simp)
    have hr := ih (fun x hx => h x (by simp [hx]))
    cases hts : e.updated_parsed with
    | none => rw [hts] at he; simp at he
    | some t =>
      have hsel : steadySelect cfg w e = (decide (w < t) && searchPass cfg.search e.summary) := by
        simp [steadySelect, hts]
      by_cases hb : (decide (w < t) && searchPass cfg.search e.summary) = true
      · simp [steadyLoop, hts, hb, hr, List.filter_cons, hsel]
      · simp [steadyLoop, hts, hb, hr, List.filter_cons, hsel]

theorem steadyLoop_abort (cfg : FeedConfig) (w : Int) (bad : Entry) (post : List Entry)
    (hbad : bad.updated_parsed = Option.none) :
    ∀ pre : List Entry, (∀ e ∈ pre, (e.updated_parsed).isSome) →
      steadyLoop cfg w (pre ++ bad :: post) =
        ((pre.filter (steadySelect cfg w)).map (mkEvent cfg), false) := by
  intro pre
  induction pre with
  | nil => intro _; simp [steadyLoop, hbad]
  | cons e rest ih =>
    intro h
    have he : (e.updated_parsed).isSome := h e (by simp)
    have hr := ih (fun x hx => h x (by simp [hx]))
    cases hts : e.updated_parsed with
    | none => rw [hts] at he; simp at he
    | some t =>
      have hsel : steadySelect cfg w e = (decide (w < t) && searchPass cfg.search e.summary) := by
        simp [steadySelect, hts]
      by_cases hb : (decide (w < t) && searchPass cfg.search e.summary) = true
      · simp [steadyLoop, hts, hb, hr, List.filter_cons, hsel]
      · simp [steadyLoop, hts, hb, hr, List.filter_cons, hsel]

/-! ### Claim theorems -/

/-- C5: the composed field projection returns `None` when the configured
path is absent or empty (the guards at lines 101-102); for a nonempty path
it is `get_nested_value` on the path split at dots, and that walk returns
`None` as soon as any intermediate value is absent or not
dictionary-shaped (conjuncts four and five: appending further keys after a
walk that has left the dictionary world yields `None`), and otherwise
returns the value reached at the end of the path by iterated dictionary
lookups (last conjunct). -/
theorem projection_path_spec :
    (∀ e : PyVal, projectContentTags e Option.none = PyVal.none) ∧
    (∀ e : PyVal, projectContentTags e (Option.some []) = PyVal.none) ∧
    (∀ (e : PyVal) (p : List Char), p ≠ [] →
      projectContentTags e (Option.some p) = get_nested_value e (splitDot p)) ∧
    (∀ (d : PyVal) (ks1 ks2 : List (List Char)),
      get_nested_value d (ks1 ++ ks2) =
        get_nested_value (get_nested_value d ks1) ks2) ∧
    (∀ (d : PyVal) (k : List Char) (ks : List (List Char)),
      isDictB d = false → get_nested_value d (k :: ks) = PyVal.none) ∧
    (∀ (l : List (List Char × PyVal)) (k : List Char) (ks : List (List Char)),
      get_nested_value (PyVal.dict l) (k :: ks) = get_nested_value (dictGet l k) ks) := by
  refine ⟨fun e => rfl, fun e => rfl, ?_, ?_, ?_, fun l k ks => rfl⟩
  · intro e p hp
    have hne : splitDot p ≠ [] := splitDotGo_ne_nil p []
    simp [projectContentTags, contentTagsKeys, hp, hne]
  · intro d ks1 ks2
    exact get_nested_value_append ks1 d ks2
  · intro d k ks hd
    cases d <;> first | rfl | (simp [isDictB] at hd)

/-- Witness for C5 at concrete inputs: the path `tags.label` projected out
of `{tags: {label: news}}` reaches `news`, and a walk that hits a
non-dictionary intermediate value yields `None`. -/
theorem projection_path_spec_witness :
    projectContentTags
        (PyVal.dict [("tags".toList, PyVal.dict [("label".toList, PyVal.str "news".toList)])])
        (Option.some "tags.label".toList) = PyVal.str "news".toList ∧
    get_nested_value (PyVal.int 3) ("label".toList :: []) = PyVal.none := by
  constructor
  · rw [projection_path_spec.2.2.1 _ _ (by decide)]
    rfl
  · exact projection_path_spec.2.2.2.2.1 (PyVal.int 3) "label".toList [] rfl

/-- C6: field projection is total and deterministic.  The variant
`get_nested_valueE`, in which the non-guarded attribute access raises, is
proved to never raise: on every input pair it returns `Except.ok` of the
value computed by the pure function `get_nested_value` — the same result
on every application to the same pair, with no exception for non-dict
inputs, missing keys, or the empty key list. -/
theorem get_nested_value_total_det :
    ∀ (d : PyVal) (ks : List (List Char)),
      get_nested_valueE d ks = Except.ok (get_nested_value d ks) := by
  intro d ks
  exact get_nested_valueE_eq ks d

/-- C8: the search filter passes an entry iff the feed's `search` option
is absent (`None`) or the search string is a case-sensitive substring of
the entry's summary; concretely, `python` is not found in
`A post about Python tips` but is found in `python rocks`. -/
theorem search_filter_spec :
    (∀ s : List Char, searchPass Option.none s = true) ∧
    (∀ q s : List Char, searchPass (Option.some q) s = true ↔ q <:+: s) ∧
    searchPass (Option.some "python".toList) "A post about Python tips".toList = false ∧
    searchPass (Option.some "python".toList) "python rocks".toList = true := by
  refine ⟨fun s => rfl, ?_, by decide, by decide⟩
  intro q s
  exact strContains_iff s q

/-- C10: the effective poll interval is the per-feed `interval` exactly
when that value is truthy; when it is absent, `None` or `0`, the effective
interval silently falls back to the global default. -/
theorem effective_interval_spec :
    (∀ d : Int, effectiveInterval Option.none d = d) ∧
    (∀ d : Int, effectiveInterval (Option.some 0) d = d) ∧
    (∀ v d : Int, v ≠ 0 → effectiveInterval (Option.some v) d = v) := by
  refine ⟨fun d => rfl, fun d => rfl, ?_⟩
  intro v d hv
  simp [effectiveInterval, hv]

/-- Witness for C10: a per-feed interval of `30` overrides a default of
`7200`. -/
theorem effective_interval_spec_witness :
    effectiveInterval (Option.some 30) 7200 = 30 :=
  effective_interval_spec.2.2 30 7200 (by decide)

/-- C7: with `most_recent_item = false` and no watermark yet, a successful
poll emits zero events and only establishes the watermark from the parsed
feed-level timestamp (and leaves `first_poll` as it was: with the feature
disabled `first_poll` is in fact never cleared). -/
theorem first_poll_disabled_emits_nothing :
    ∀ (cfg : FeedConfig) (st : PollerState) (pf : ParsedFeed),
      st.last_updated = Option.none →
      pollCycle cfg false st (FetchOutcome.success pf) =
        ({ last_updated := pf.feedUpdated, first_poll := st.first_poll }, []) := by
  intro cfg st pf hw
  simp [pollCycle, takesCold, hw]

/-- Witness for C7: a concrete first poll with the feature disabled emits
nothing and records the feed-level timestamp `7`. -/
theorem first_poll_disabled_emits_nothing_witness :
    pollCycle ⟨Option.none, Option.none, Option.none⟩ false ⟨Option.none, true⟩
        (FetchOutcome.success ⟨Option.some 7, [⟨"hi".toList, Option.some 3, PyVal.dict []⟩]⟩) =
      ({ last_updated := Option.some 7, first_poll := true }, []) :=
  first_poll_disabled_emits_nothing ⟨Option.none, Option.none, Option.none⟩
    ⟨Option.none, true⟩ ⟨Option.some 7, [⟨"hi".toList, Option.some 3, PyVal.dict []⟩]⟩ rfl

/-- Counterexample to C2 as stated: on a first successful poll with
`most_recent_item` enabled but zero entries, `first_poll` stays `true`
(the assignment `first_poll = False` sits inside the branch guarded by
`feed.entries`), so the poller does NOT "transition to STEADY
(is_first_poll becomes false) regardless of whether the feed had any
entries". -/
theorem cold_start_empty_cex :
    (pollCycle ⟨Option.none, Option.none, Option.none⟩ true ⟨Option.none, true⟩
        (FetchOutcome.success ⟨Option.some 5, []⟩)).1.first_poll = true := rfl

/-- C2 amended: on a first successful poll with `most_recent_item`
enabled, (i) when at least one entry is present, exactly the entry at
index 0 is emitted subject to the search filter, `first_poll` is cleared,
and the watermark is set from the feed-level timestamp; (ii) with zero
entries the cycle emits nothing, sets only the watermark, and `first_poll`
is left as it was (so the cold-start branch may still run on a later
cycle); (iii) once `first_poll` is `false` the cold-start branch can never
be taken again, so that branch runs at most once per feed. -/
theorem cold_start_single_emit :
    (∀ (cfg : FeedConfig) (st : PollerState) (fu : Option Int) (e : Entry) (rest : List Entry),
      st.first_poll = true →
      pollCycle cfg true st (FetchOutcome.success ⟨fu, e :: rest⟩) =
        ({ last_updated := fu, first_poll := false },
         if searchPass cfg.search e.summary then [mkEvent cfg e] else [])) ∧
    (∀ (cfg : FeedConfig) (st : PollerState) (fu : Option Int),
      pollCycle cfg true st (FetchOutcome.success ⟨fu, []⟩) =
        ({ last_updated := fu, first_poll := st.first_poll }, [])) ∧
    (∀ (mri : Bool) (st : PollerState) (pf : ParsedFeed),
      st.first_poll = false → takesCold mri st pf = false) := by
  refine ⟨?_, ?_, ?_⟩
  · intro cfg st fu e rest hfp
    simp [pollCycle, takesCold, hfp]
  · intro cfg st fu
    cases hw : st.last_updated with
    | some w => simp [pollCycle, takesCold, steadyLoop, hw]
    | none => simp [pollCycle, takesCold, hw]
  · intro mri st pf hfp
    simp [takesCold, hfp]

/-- Witness for C2 at a concrete input: with two entries, only the entry
at index 0 is emitted, `first_poll` clears, and the watermark becomes the
feed-level timestamp `9`. -/
theorem cold_start_single_emit_witness :
    pollCycle ⟨Option.none, Option.none, Option.none⟩ true ⟨Option.none, true⟩
        (FetchOutcome.success ⟨Option.some 9,
          [⟨"hello".toList, Option.some 4, PyVal.dict []⟩,
           ⟨"older".toList, Option.some 2, PyVal.dict []⟩]⟩) =
      ({ last_updated := Option.some 9, first_poll := false },
       [mkEvent ⟨Option.none, Option.none, Option.none⟩
          ⟨"hello".toList, Option.some 4, PyVal.dict []⟩]) := by
  have h := cold_start_single_emit.1 ⟨Option.none, Option.none, Option.none⟩
    ⟨Option.none, true⟩ (Option.some 9) ⟨"hello".toList, Option.some 4, PyVal.dict []⟩
    [⟨"older".toList, Option.some 2, PyVal.dict []⟩] rfl
  simpa using h

/-- Counterexample to C1 as stated: a reachable cycle in which the
watermark IS set (`last_updated = some 10`) yet an entry whose timestamp
`5` is not greater than the watermark is emitted.  The state
`⟨some 10, first_poll := true⟩` with `most_recent_item` enabled arises
when the first successful poll carried a feed-level timestamp but no
entries; on the next poll the cold-start branch takes precedence over the
STEADY branch and emits entry 0 unconditionally on its timestamp. -/
theorem steady_watermark_cex :
    (pollCycle ⟨Option.none, Option.none, Option.none⟩ true ⟨Option.some 10, true⟩
        (FetchOutcome.success ⟨Option.some 11, [⟨[], Option.some 5, PyVal.dict []⟩]⟩)).2 =
      [mkEvent ⟨Option.none, Option.none, Option.none⟩ ⟨[], Option.some 5, PyVal.dict []⟩] ∧
    ¬ ((10 : Int) < 5) := ⟨rfl, by decide⟩

/-- C1 amended: in a cycle where the watermark is set AND the cold-start
branch does not apply (`takesCold = false`) AND every entry carries a
comparable timestamp (an entry without one raises and aborts the cycle,
see the C4 theorems), the emitted events are exactly the entries whose
timestamp is strictly greater than the watermark and which pass the
search filter, in parser order (filter-map form); consequently no entry
with an equal-or-earlier timestamp is emitted in such a cycle (second
conjunct). -/
theorem steady_cycle_emits_filter :
    ∀ (cfg : FeedConfig) (mri : Bool) (st : PollerState) (w : Int) (pf : ParsedFeed),
      st.last_updated = Option.some w →
      takesCold mri st pf = false →
      (∀ e ∈ pf.entries, (e.updated_parsed).isSome) →
      (pollCycle cfg mri st (FetchOutcome.success pf)).2 =
          (pf.entries.filter (steadySelect cfg w)).map (mkEvent cfg) ∧
      ∀ ev ∈ (pollCycle cfg mri st (FetchOutcome.success pf)).2,
        ∃ t : Int, ev.entry.updated_parsed = Option.some t ∧ w < t := by
  intro cfg mri st w pf hw hc hts
  have hloop := steadyLoop_total cfg w pf.entries hts
  have hcyc : (pollCycle cfg mri st (FetchOutcome.success pf)).2 =
      (pf.entries.filter (steadySelect cfg w)).map (mkEvent cfg) := by
    simp [pollCycle, hc, hw, hloop]
  refine ⟨hcyc, ?_⟩
  intro ev hev
  rw [hcyc] at hev
  obtain ⟨e, he, rfl⟩ := List.mem_map.1 hev
  have hsel := List.of_mem_filter he
  cases hts' : e.updated_parsed with
  | none => simp [steadySelect, hts'] at hsel
  | some t =>
    refine ⟨t, by simp [mkEvent, hts'], ?_⟩
    simp [steadySelect, hts'] at hsel
    exact hsel.1

/-- Witness for C1 at a concrete STEADY cycle: watermark `10`, entries
with timestamps `11` and `9`; exactly the `11` entry is selected. -/
theorem steady_cycle_emits_filter_witness :
    ((pollCycle ⟨Option.none, Option.none, Option.none⟩ false ⟨Option.some 10, false⟩
        (FetchOutcome.success ⟨Option.some 12,
          [⟨"a".toList, Option.some 11, PyVal.dict []⟩,
           ⟨"b".toList, Option.some 9, PyVal.dict []⟩]⟩)).2 =
      (([⟨"a".toList, Option.some 11, PyVal.dict []⟩,
         ⟨"b".toList, Option.some 9, PyVal.dict []⟩] :
          List Entry).filter (steadySelect ⟨Option.none, Option.none, Option.none⟩ 10)).map
        (mkEvent ⟨Option.none, Option.none, Option.none⟩) ∧
     ∀ ev ∈ (pollCycle ⟨Option.none, Option.none, Option.none⟩ false ⟨Option.some 10, false⟩
        (FetchOutcome.success ⟨Option.some 12,
          [⟨"a".toList, Option.some 11, PyVal.dict []⟩,
           ⟨"b".toList, Option.some 9, PyVal.dict []⟩]⟩)).2,
        ∃ t : Int, ev.entry.updated_parsed = Option.some t ∧ 10 < t) :=
  steady_cycle_emits_filter ⟨Option.none, Option.none, Option.none⟩ false
    ⟨Option.some 10, false⟩ 10
    ⟨Option.some 12,
      [⟨"a".toList, Option.some 11, PyVal.dict []⟩,
       ⟨"b".toList, Option.some 9, PyVal.dict []⟩]⟩
    rfl (by decide) (by decide)

/-- Counterexample to C3 as stated: a cycle in which the fetch and parse
succeed and the fresh feed-level timestamp `9` is present, yet the
watermark stays at its old value `5`.  The single entry has no comparable
`updated_parsed`, so the comparison at line 125 raises; the `except`
clause catches the error and the watermark assignment at line 132 never
runs. -/
theorem watermark_missing_ts_cex :
    (pollCycle ⟨Option.none, Option.none, Option.none⟩ false ⟨Option.some 5, false⟩
        (FetchOutcome.success ⟨Option.some 9, [⟨[], Option.none, PyVal.dict []⟩]⟩)).1.last_updated =
      Option.some 5 ∧ Option.some (9 : Int) ≠ Option.some (5 : Int) := ⟨rfl, by decide⟩

/-- C3 amended: (i) a fetch failure leaves the whole poller state — in
particular the watermark — unchanged and emits nothing; (ii) on a
successful fetch and parse in which every entry carries a comparable
timestamp (so the selection loop cannot raise), the watermark is
assigned the freshly parsed feed-level timestamp
(`feed.feed.updated_parsed if hasattr(...) else None`); (iii) hence a
failing cycle is a no-op and the next cycle runs from the same state as
the last successful one. -/
theorem watermark_update_spec :
    (∀ (cfg : FeedConfig) (mri : Bool) (st : PollerState),
      pollCycle cfg mri st FetchOutcome.failure = (st, [])) ∧
    (∀ (cfg : FeedConfig) (mri : Bool) (st : PollerState) (pf : ParsedFeed),
      (∀ e ∈ pf.entries, (e.updated_parsed).isSome) →
      (pollCycle cfg mri st (FetchOutcome.success pf)).1.last_updated = pf.feedUpdated) ∧
    (∀ (cfg : FeedConfig) (mri : Bool) (st : PollerState) (rest : List FetchOutcome),
      runCycles cfg mri st (FetchOutcome.failure :: rest) = runCycles cfg mri st rest) := by
  refine ⟨fun cfg mri st => rfl, ?_, ?_⟩
  · intro cfg mri st pf hts
    by_cases hc : takesCold mri st pf = true
    · simp [pollCycle, hc]
    · rw [Bool.not_eq_true] at hc
      cases hw : st.last_updated with
      | some w =>
        have hloop := steadyLoop_total cfg w pf.entries hts
        simp [pollCycle, hc, hw, hloop]
      | none => simp [pollCycle, hc, hw]
  · intro cfg mri st rest
    simp [runCycles, pollCycle]

/-- Witness for C3 at a concrete input: a successful parse with feed-level
timestamp `9` and a timestamped entry moves the watermark from `5` to `9`. -/
theorem watermark_update_spec_witness :
    (pollCycle ⟨Option.none, Option.none, Option.none⟩ false ⟨Option.some 5, false⟩
        (FetchOutcome.success ⟨Option.some 9,
          [⟨"x".toList, Option.some 8, PyVal.dict []⟩]⟩)).1.last_updated = Option.some 9 :=
  watermark_update_spec.2.1 ⟨Option.none, Option.none, Option.none⟩ false
    ⟨Option.some 5, false⟩ ⟨Option.some 9, [⟨"x".toList, Option.some 8, PyVal.dict []⟩]⟩
    (by decide)

/-- Counterexample to C4 as stated: in a STEADY cycle with watermark `5`,
the first entry has no comparable timestamp and the second entry is a
perfectly good one with timestamp `10 > 5` that passes the (absent)
search filter.  The claim says the second entry is still evaluated and
emitted and the watermark update still happens; in the code the raised
comparison aborts the whole cycle: nothing is emitted and the state is
unchanged. -/
theorem missing_ts_aborts_cex :
    pollCycle ⟨Option.none, Option.none, Option.none⟩ false ⟨Option.some 5, false⟩
        (FetchOutcome.success ⟨Option.some 9,
          [⟨[], Option.none, PyVal.dict []⟩,
           ⟨[], Option.some 10, PyVal.dict []⟩]⟩) =
      (⟨Option.some 5, false⟩, []) ∧ (5 : Int) < 10 := ⟨rfl, by decide⟩

/-- C4 amended: in a STEADY cycle (watermark set, cold-start branch not
taken) whose entry list is `pre ++ bad :: post` where `bad` lacks a
comparable timestamp and every entry of `pre` has one: `bad` is never
emitted, the entries BEFORE it are processed normally (emitted exactly
when newer than the watermark and passing the search filter, in order),
but the entries after it are not evaluated and the watermark update is
skipped — the poller state is left entirely unchanged. -/
theorem missing_ts_cycle_spec :
    ∀ (cfg : FeedConfig) (mri : Bool) (st : PollerState) (w : Int) (fu : Option Int)
      (pre : List Entry) (bad : Entry) (post : List Entry),
      st.last_updated = Option.some w →
      bad.updated_parsed = Option.none →
      (∀ e ∈ pre, (e.updated_parsed).isSome) →
      takesCold mri st ⟨fu, pre ++ bad :: post⟩ = false →
      pollCycle cfg mri st (FetchOutcome.success ⟨fu, pre ++ bad :: post⟩) =
        (st, (pre.filter (steadySelect cfg w)).map (mkEvent cfg)) := by
  intro cfg mri st w fu pre bad post hw hbad hpre hc
  have hloop := steadyLoop_abort cfg w bad post hbad pre hpre
  simp [pollCycle, hc, hw, hloop]

/-- Witness for C4 at a concrete input: watermark `5`, entries
`[ts 6, no-ts, ts 10]` — the first entry is emitted, the timestampless
entry and the `ts 10` entry after it are not, and the watermark stays
`5`. -/
theorem missing_ts_cycle_spec_witness :
    pollCycle ⟨Option.none, Option.none, Option.none⟩ false ⟨Option.some 5, false⟩
        (FetchOutcome.success ⟨Option.some 9,
          [⟨"a".toList, Option.some 6, PyVal.dict []⟩] ++
            ⟨"b".toList, Option.none, PyVal.dict []⟩ ::
              [⟨"c".toList, Option.some 10, PyVal.dict []⟩]⟩) =
      (⟨Option.some 5, false⟩,
       (([⟨"a".toList, Option.some 6, PyVal.dict []⟩] :
            List Entry).filter (steadySelect ⟨Option.none, Option.none, Option.none⟩ 5)).map
         (mkEvent ⟨Option.none, Option.none, Option.none⟩)) :=
  missing_ts_cycle_spec ⟨Option.none, Option.none, Option.none⟩ false
    ⟨Option.some 5, false⟩ 5 (Option.some 9)
    [⟨"a".toList, Option.some 6, PyVal.dict []⟩]
    ⟨"b".toList, Option.none, PyVal.dict []⟩
    [⟨"c".toList, Option.some 10, PyVal.dict []⟩]
    rfl rfl (by decide) (by decide)
